import Mathlib

/-
Verification development for the btc-transaction-scanner repository.

The definitions below are a shallow embedding of the TypeScript sources:
  - src/src/types/bitcoin.ts            (data model)
  - src/unnamed/part_008                (BitcoinRPCClient, final version; part_009 has
                                         the identical callRPC body)
  - src/src/services/block-parser.ts    (BlockParser)
  - src/unnamed/part_013                (AddressDetector, final version: the repository
                                         tests construct this two-argument variant)
  - src/src/services/block-monitor.ts   (BlockMonitor)

JavaScript numbers that hold BTC amounts are modelled as rationals (all the
arithmetic performed on them by this code is addition and subtraction).
Strings are modelled as Lean strings; where JavaScript semantics differ
(substring clamping, lossy UTF-8 decoding) a dedicated helper reproduces the
JavaScript behaviour.  Methods whose only effects are console logging are
modelled as pure functions; where a claim is about an effect (RPC lookups,
backoff delays, warnings) the embedding returns an explicit trace of that
effect alongside the value.
-/

namespace BtcScanner

/-! ## Data model (src/src/types/bitcoin.ts) -/

/-- Direction of an address involvement: the address occurs in an input or in
an output of the transaction. -/
inductive Direction where
  | input
  | output
deriving DecidableEq, Repr

/-- The four transaction classifications produced by the detector. -/
inductive TransactionType where
  | incoming
  | outgoing
  | both
  | none
deriving DecidableEq, Repr

/-- Display address type, from the AddressType union in bitcoin.ts. -/
inductive AddressType where
  | legacyP2PKH
  | legacyP2SH
  | segwitBech32
  | taprootP2TR
  | unknown
deriving DecidableEq, Repr

/-- AddressInvolvement from bitcoin.ts: one (address, direction, amount) fact
about a transaction.  The addressType field is set by the part_013 detector
and absent in earlier iterations, hence an Option. -/
structure AddressInvolvement where
  address : String
  name : Option String
  direction : Direction
  amount : Rat
  addressType : Option AddressType
deriving DecidableEq, Repr

/-- The scriptPubKey record of a transaction output (bitcoin.ts).  The hex and
type fields are always present in the RPC verbosity-2 form; addresses, desc
and address are optional. -/
structure ScriptPubKey where
  asm : String
  hex : String
  type : String
  addresses : Option (List String)
  desc : Option String
  address : Option String
deriving DecidableEq, Repr

/-- TransactionOutput from bitcoin.ts. -/
structure TransactionOutput where
  value : Rat
  n : Nat
  scriptPubKey : ScriptPubKey
deriving DecidableEq, Repr

/-- TransactionInput from bitcoin.ts.  The detector code reads an addresses
field and a coinbase marker that the declared interface does not list; both
are modelled here.  A missing txid (JavaScript undefined or empty string,
both falsy) is modelled as the empty string. -/
structure TransactionInput where
  txid : String
  vout : Nat
  coinbase : Bool
  addresses : Option (List String)
  scriptSigAsm : String
deriving DecidableEq, Repr

/-- Transaction from bitcoin.ts (the fields the scanner reads). -/
structure Transaction where
  txid : String
  vin : List TransactionInput
  vout : List TransactionOutput
deriving DecidableEq, Repr

/-- RawBlock, restricted to the fields the monitor reads. -/
structure RawBlock where
  hash : String
  height : Nat
  tx : List Transaction
deriving DecidableEq, Repr

/-! ## RPC client (src/unnamed/part_008, callRPC; part_009 is identical) -/

namespace BitcoinRPCClient

/-- Outcome of one HTTP attempt of callRPC: the transport can fail (axios
throws), the node can answer with a populated error field, or the call
succeeds with a result. -/
inductive AttemptOutcome (T : Type) where
  | transportFail (message : String)
  | nodeError (message : String)
  | success (value : T)
deriving DecidableEq, Repr

/-- Trace of one callRPC invocation: the surfaced result, how many attempts
were made, and the backoff delays (in milliseconds) slept between attempts. -/
structure CallTrace (T : Type) where
  result : Except String T
  attemptsUsed : Nat
  delays : List Nat
deriving Repr

/-- Loop body of callRPC (part_008 lines 29-53).  The attempt counter runs
from 1 to retries; a node-reported error is thrown inside the try block
(throw new Error with an RPC Error message) and is therefore caught by the
same catch clause as a transport failure: on a non-final attempt the code
sleeps 2 to the power attempt times 1000 milliseconds and retries, on the
final attempt the error is rethrown.  The remaining argument is the number
of loop iterations still allowed (retries - attempt + 1). -/
def callRPCGo {T : Type} (outcomes : Nat → AttemptOutcome T) (retries : Nat) :
    Nat → Nat → CallTrace T
  | _, 0 => ⟨Except.error "All RPC retry attempts failed", 0, []⟩
  | attempt, remaining + 1 =>
    match outcomes attempt with
    | AttemptOutcome.success v => ⟨Except.ok v, attempt, []⟩
    | AttemptOutcome.transportFail m =>
      if attempt = retries then ⟨Except.error m, attempt, []⟩
      else
        let rest := callRPCGo outcomes retries (attempt + 1) remaining
        ⟨rest.result, rest.attemptsUsed, 2 ^ attempt * 1000 :: rest.delays⟩
    | AttemptOutcome.nodeError m =>
      if attempt = retries then ⟨Except.error ("RPC Error: " ++ m), attempt, []⟩
      else
        let rest := callRPCGo outcomes retries (attempt + 1) remaining
        ⟨rest.result, rest.attemptsUsed, 2 ^ attempt * 1000 :: rest.delays⟩

/-- callRPC with its default retry budget of 3 (part_008 line 19). -/
def callRPC {T : Type} (outcomes : Nat → AttemptOutcome T) (retries : Nat := 3) :
    CallTrace T :=
  callRPCGo outcomes retries 1 retries

end BitcoinRPCClient

/-! ## Block monitor poll loop (src/src/services/block-monitor.ts) -/

namespace BlockMonitor

/-- The per-block body of the poll loop (pollForNewBlocks, lines 161-185):
heights are processed in increasing order; after a successful processBlock
the watermark lastProcessedBlock is set to that height; a failure inside
processBlock rethrows, aborting the loop with the watermark untouched.
blockOk tells whether processBlock succeeds at a height.  Returns the final
watermark together with the failed height, if any. -/
def processHeights (blockOk : Nat → Bool) : List Nat → Nat → Nat × Option Nat
  | [], wm => (wm, Option.none)
  | h :: rest, wm =>
    if blockOk h then processHeights blockOk rest h else (wm, Option.some h)

/-- One poll cycle (pollForNewBlocks): if the chain tip moved past the
watermark, process every height from watermark + 1 through the tip. -/
def pollForNewBlocks (blockOk : Nat → Bool) (currentBlock wm : Nat) :
    Nat × Option Nat :=
  if currentBlock > wm then
    processHeights blockOk (List.range' (wm + 1) (currentBlock - wm)) wm
  else (wm, Option.none)

/-- The heights a poll cycle will attempt given the watermark and the chain
tip, in order (the for loop of pollForNewBlocks). -/
def cycleHeights (wm currentBlock : Nat) : List Nat :=
  List.range' (wm + 1) (currentBlock - wm)

end BlockMonitor

/-! ## Memory pressure query (src/src/services/block-parser.ts, checkMemoryLimit) -/

namespace BlockParser

/-- Result of checkMemoryLimit, extended with the warning emission (the
console.warn at 80 percent of the ceiling) as an explicit flag.  The
BlockParser class has no mutable fields, so the method is a pure function of
the current heap usage reading and the configured ceiling. -/
structure MemCheckResult where
  isOverLimit : Bool
  usage : Rat
  warned : Bool
deriving DecidableEq, Repr

/-- checkMemoryLimit (block-parser.ts lines 333-353).  heapUsedBytes is the
process.memoryUsage().heapUsed reading; maxMemoryMB may be any rational,
including zero or negative values. -/
def checkMemoryLimit (heapUsedBytes maxMemoryMB : Rat) : MemCheckResult :=
  let currentUsageMB := heapUsedBytes / (1024 * 1024)
  { isOverLimit := decide (currentUsageMB > maxMemoryMB)
    usage := currentUsageMB
    warned := decide (currentUsageMB > maxMemoryMB * (8 / 10)) }

end BlockParser

/-! ## SHA-256 (the node crypto library, as used by base58CheckEncode)

The scanner calls createHash of the external node crypto collaborator; the
function below is the FIPS 180-4 SHA-256 algorithm over byte lists, with
32-bit words as naturals reduced modulo 2 to the 32. -/

/-- Reduce to a 32-bit word. -/
def u32 (x : Nat) : Nat := x % 4294967296

/-- Right rotation of a 32-bit word by n bits. -/
def rotr (n x : Nat) : Nat := u32 (x / 2 ^ n + x % 2 ^ n * 2 ^ (32 - n))

/-- SHA-256 big sigma 0. -/
def bigSigma0 (x : Nat) : Nat := rotr 2 x ^^^ rotr 13 x ^^^ rotr 22 x

/-- SHA-256 big sigma 1. -/
def bigSigma1 (x : Nat) : Nat := rotr 6 x ^^^ rotr 11 x ^^^ rotr 25 x

/-- SHA-256 small sigma 0. -/
def smlSigma0 (x : Nat) : Nat := rotr 7 x ^^^ rotr 18 x ^^^ x / 2 ^ 3

/-- SHA-256 small sigma 1. -/
def smlSigma1 (x : Nat) : Nat := rotr 17 x ^^^ rotr 19 x ^^^ x / 2 ^ 10

/-- SHA-256 choice function (the complement is taken within 32 bits). -/
def chF (x y z : Nat) : Nat := (x &&& y) ^^^ ((x ^^^ 4294967295) &&& z)

/-- SHA-256 majority function. -/
def majF (x y z : Nat) : Nat := (x &&& y) ^^^ (x &&& z) ^^^ (y &&& z)

/-- The eight working variables of the SHA-256 compression function. -/
structure Hash8 where
  a : Nat
  b : Nat
  c : Nat
  d : Nat
  e : Nat
  f : Nat
  g : Nat
  h : Nat
deriving DecidableEq, Repr

/-- SHA-256 round constants (decimal form of the 64 FIPS 180-4 words). -/
def sha256K : List Nat :=
  [1116352408, 1899447441, 3049323471, 3921009573, 961987163,
   1508970993, 2453635748, 2870763221, 3624381080, 310598401,
   607225278, 1426881987, 1925078388, 2162078206, 2614888103,
   3248222580, 3835390401, 4022224774, 264347078, 604807628,
   770255983, 1249150122, 1555081692, 1996064986, 2554220882,
   2821834349, 2952996808, 3210313671, 3336571891, 3584528711,
   113926993, 338241895, 666307205, 773529912, 1294757372,
   1396182291, 1695183700, 1986661051, 2177026350, 2456956037,
   2730485921, 2820302411, 3259730800, 3345764771, 3516065817,
   3600352804, 4094571909, 275423344, 430227734, 506948616,
   659060556, 883997877, 958139571, 1322822218, 1537002063,
   1747873779, 1955562222, 2024104815, 2227730452, 2361852424,
   2428436474, 2756734187, 3204031479, 3329325298]

/-- SHA-256 initial hash value (decimal form of the 8 FIPS 180-4 words). -/
def sha256H0 : Hash8 :=
  ⟨1779033703, 3144134277, 1013904242, 2773480762,
   1359893119, 2600822924, 528734635, 1541459225⟩

/-- One SHA-256 round over the working variables, consuming one (constant,
schedule word) pair. -/
def sha256Round (st : Hash8) (kw : Nat × Nat) : Hash8 :=
  let t1 := u32 (st.h + bigSigma1 st.e + chF st.e st.f st.g + kw.1 + kw.2)
  let t2 := u32 (bigSigma0 st.a + majF st.a st.b st.c)
  ⟨u32 (t1 + t2), st.a, st.b, st.c, u32 (st.d + t1), st.e, st.f, st.g⟩

/-- Extend the 16-word block to the 64-word message schedule; the fuel is the
number of words still to append (48 at the top call). -/
def scheduleExtend : Nat → List Nat → List Nat
  | 0, w => w
  | fuel + 1, w =>
    let n := w.length
    let next := u32 (smlSigma1 (w.getD (n - 2) 0) + w.getD (n - 7) 0 +
      smlSigma0 (w.getD (n - 15) 0) + w.getD (n - 16) 0)
    scheduleExtend fuel (w ++ [next])

/-- SHA-256 compression of one 16-word block into the running hash value. -/
def sha256Compress (st : Hash8) (block : List Nat) : Hash8 :=
  let w := scheduleExtend 48 block
  let fin := (sha256K.zip w).foldl sha256Round st
  ⟨u32 (st.a + fin.a), u32 (st.b + fin.b), u32 (st.c + fin.c), u32 (st.d + fin.d),
   u32 (st.e + fin.e), u32 (st.f + fin.f), u32 (st.g + fin.g), u32 (st.h + fin.h)⟩

/-- Fold the compression function over the padded message, 16 words at a
time. -/
def sha256Blocks : Hash8 → List Nat → Hash8
  | st, w0 :: w1 :: w2 :: w3 :: w4 :: w5 :: w6 :: w7 ::
        w8 :: w9 :: w10 :: w11 :: w12 :: w13 :: w14 :: w15 :: rest =>
    sha256Blocks
      (sha256Compress st
        [w0, w1, w2, w3, w4, w5, w6, w7, w8, w9, w10, w11, w12, w13, w14, w15])
      rest
  | st, _ => st

/-- Big-endian byte expansion of a natural into k bytes. -/
def toBytesBE (k n : Nat) : List Nat :=
  (List.range k).map (fun i => n / 2 ^ (8 * (k - 1 - i)) % 256)

/-- SHA-256 padding: append 0x80, zero bytes up to 56 modulo 64, then the
bit length as 8 big-endian bytes. -/
def sha256Pad (msg : List Nat) : List Nat :=
  msg ++ [0x80] ++ List.replicate ((119 - msg.length % 64) % 64) 0 ++
    toBytesBE 8 (8 * msg.length)

/-- Group bytes into big-endian 32-bit words. -/
def bytesToWords : List Nat → List Nat
  | a :: b :: c :: d :: rest =>
    (a * 16777216 + b * 65536 + c * 256 + d) :: bytesToWords rest
  | _ => []

/-- Split a 32-bit word into 4 big-endian bytes. -/
def wordToBytes (w : Nat) : List Nat :=
  [w / 16777216 % 256, w / 65536 % 256, w / 256 % 256, w % 256]

/-- SHA-256 of a byte list, as a list of 32 bytes. -/
def sha256 (msg : List Nat) : List Nat :=
  let st := sha256Blocks sha256H0 (bytesToWords (sha256Pad msg))
  ([st.a, st.b, st.c, st.d, st.e, st.f, st.g, st.h].map wordToBytes).flatten

/-! ## Positional digit lists (shared by the base58 development)

The digit loop of base58Encode repeatedly divides by the base and prepends
the remainder digit; toDigitsBase reproduces that loop (most significant
digit first), with the starting value itself as recursion fuel. -/

/-- Digit expansion with explicit fuel; fuel at least n gives the exact
digit list of n in base b, most significant first. -/
def toDigitsAux (b : Nat) : Nat → Nat → List Nat
  | 0, _ => []
  | fuel + 1, n => if n = 0 then [] else toDigitsAux b fuel (n / b) ++ [n % b]

/-- Digits of n in base b, most significant first; empty for zero (the while
loop of base58Encode produces nothing for zero). -/
def toDigitsBase (b n : Nat) : List Nat := toDigitsAux b n n

/-- Value of a most-significant-first digit list in base b. -/
def fromDigitsBase (b : Nat) (ds : List Nat) : Nat :=
  ds.foldl (fun acc d => acc * b + d) 0

/-! ## Base58Check (block-parser.ts, base58Encode and base58CheckEncode) -/

/-- The standard 58-character base58 alphabet (block-parser.ts line 262). -/
def base58Alphabet : List Char :=
  "123456789ABCDEFGHJKLMNPQRSTUVWXYZabcdefghijkmnopqrstuvwxyz".data

/-- Number of leading zero bytes (the for loop of base58Encode that prepends
one digit 1 per leading zero byte). -/
def leadingZeroCount : List Nat → Nat
  | [] => 0
  | x :: rest => if x = 0 then leadingZeroCount rest + 1 else 0

/-- base58Encode (block-parser.ts lines 261-284): interpret the buffer as a
big-endian integer, expand in base 58 over the alphabet, then prepend one
digit 1 per leading zero byte. -/
def base58Encode (buffer : List Nat) : String :=
  String.mk (List.replicate (leadingZeroCount buffer) '1' ++
    (toDigitsBase 58 (fromDigitsBase 256 buffer)).map (fun d => base58Alphabet.getD d '1'))

/-- base58CheckEncode (block-parser.ts lines 246-259): append the first 4
bytes of the double SHA-256 of the data as a checksum, then base58-encode. -/
def base58CheckEncode (data : List Nat) : String :=
  base58Encode (data ++ (sha256 (sha256 data)).take 4)

/-- Index of a character in a character list (0-based). -/
def charIndexIn : List Char → Char → Option Nat
  | [], _ => Option.none
  | a :: rest, c =>
    if a = c then Option.some 0 else (charIndexIn rest c).map (· + 1)

/-- Map base58 characters back to their digit values; fails if any character
is outside the alphabet. -/
def base58DigitsOf : List Char → Option (List Nat)
  | [] => Option.some []
  | c :: rest =>
    match charIndexIn base58Alphabet c, base58DigitsOf rest with
    | Option.some d, Option.some ds => Option.some (d :: ds)
    | _, _ => Option.none

/-- Modelled from the spec: the repository contains no Base58Check decoder
(only the encoder in block-parser.ts), so decoding follows the words of the
spec - map each character to its base-58 digit, read the digits as a
big-endian integer, restore one zero byte per leading digit 1, split off the
final 4 checksum bytes and verify them as the first 4 bytes of the double
SHA-256 of the remaining version-plus-payload bytes. -/
def base58CheckDecode (s : String) : Option (List Nat) :=
  match base58DigitsOf s.data with
  | Option.none => Option.none
  | Option.some ds =>
    let bytes := List.replicate (leadingZeroCount ds) 0 ++
      toDigitsBase 256 (fromDigitsBase 58 ds)
    if 4 ≤ bytes.length ∧
        bytes.drop (bytes.length - 4) =
          (sha256 (sha256 (bytes.take (bytes.length - 4)))).take 4 then
      Option.some (bytes.take (bytes.length - 4))
    else Option.none

/-! ## Bech32 and Bech32m (the external bech32 npm library, as called by the
parser converters; the two encodings differ only in the final checksum
constant) -/

/-- The bech32 data character set. -/
def bech32Charset : List Char := "qpzry9x8gf2tvdw0s3jn54khce6mua7l".data

/-- One step of the bech32 checksum polynomial. -/
def polymodStep (pre : Nat) : Nat :=
  let b := pre / 33554432
  let base := pre % 33554432 * 32
  List.foldl (fun acc (p : Nat × Nat) => if b / 2 ^ p.1 % 2 = 1 then acc ^^^ p.2 else acc)
    base
    [(0, 0x3b6a57b2), (1, 0x26508e6d), (2, 0x1ea119fa), (3, 0x3d4233dd), (4, 0x2a1462b3)]

/-- Regroup 8-bit bytes into 5-bit words, carrying leftover bits; state is
(pending value, pending bit count, output words). -/
def conv85Step : Nat × Nat × List Nat → Nat → Nat × Nat × List Nat
  | (value, bits, out), d =>
    let value := value * 256 + d
    let bits := bits + 8
    if 10 ≤ bits then
      (value % 2 ^ (bits - 10), bits - 10,
        out ++ [value / 2 ^ (bits - 5) % 32, value / 2 ^ (bits - 10) % 32])
    else
      (value % 2 ^ (bits - 5), bits - 5, out ++ [value / 2 ^ (bits - 5) % 32])

/-- toWords of the bech32 library: 8-bit to 5-bit regrouping with final
zero padding. -/
def toWords (data : List Nat) : List Nat :=
  let st := data.foldl conv85Step (0, 0, [])
  if 0 < st.2.1 then st.2.2 ++ [st.1 * 2 ^ (5 - st.2.1) % 32] else st.2.2

/-- Encode of the bech32 library: human readable part, separator 1, data
characters, and six checksum characters; encodingConst is 1 for bech32 and
0x2bc830a3 for bech32m. -/
def bech32EncodeCore (encodingConst : Nat) (hrp : String) (words : List Nat) : String :=
  let hrpCodes := hrp.data.map Char.toNat
  let chk0 := hrpCodes.foldl (fun chk c => polymodStep chk ^^^ c / 32) 1
  let chk1 := polymodStep chk0
  let chk2 := hrpCodes.foldl (fun chk c => polymodStep chk ^^^ c % 32) chk1
  let chk3 := words.foldl (fun chk w => polymodStep chk ^^^ w) chk2
  let chk4 := (List.range 6).foldl (fun chk _ => polymodStep chk) chk3
  let chk5 := chk4 ^^^ encodingConst
  hrp ++ "1" ++ String.mk (words.map (fun w => bech32Charset.getD (w % 32) 'q')) ++
    String.mk ((List.range 6).map (fun i => bech32Charset.getD (chk5 / 2 ^ ((5 - i) * 5) % 32) 'q'))

/-! ## JavaScript string and buffer helpers -/

/-- JavaScript String.prototype.substring with both indexes: clamps both to
the string length and swaps them if needed. -/
def jsSubstring (s : String) (a b : Nat) : String :=
  let n := s.data.length
  let x := min a n
  let y := min b n
  String.mk ((s.data.take (max x y)).drop (min x y))

/-- JavaScript String.prototype.substring with one index. -/
def jsSubstringFrom (s : String) (a : Nat) : String :=
  jsSubstring s a s.data.length

/-- JavaScript String.prototype.startsWith over the character lists. -/
def jsStartsWith (s pre : String) : Bool := pre.data.isPrefixOf s.data

/-- JavaScript String.prototype.endsWith over the character lists. -/
def jsEndsWith (s suf : String) : Bool := suf.data.isSuffixOf s.data

/-- Value of one hexadecimal character. -/
def hexVal (c : Char) : Option Nat :=
  if c.isDigit then Option.some (c.toNat - 48)
  else if 'a' ≤ c ∧ c ≤ 'f' then Option.some (c.toNat - 87)
  else if 'A' ≤ c ∧ c ≤ 'F' then Option.some (c.toNat - 55)
  else Option.none

/-- Node Buffer.from(s, hex): consume hex digit pairs, stopping at the first
invalid pair or at a trailing odd character. -/
def bufferFromHexAux : List Char → List Nat
  | c1 :: c2 :: rest =>
    match hexVal c1, hexVal c2 with
    | Option.some hi, Option.some lo => (16 * hi + lo) :: bufferFromHexAux rest
    | _, _ => []
  | _ => []

/-- Node Buffer.from over a Lean string. -/
def bufferFromHex (s : String) : List Nat := bufferFromHexAux s.data

/-! ## Script-to-address converters (block-parser.ts lines 186-244) -/

namespace BlockParser

/-- convertTaprootHashToAddress: bech32m with witness version 1 and the tb
prefix; malformed input falls back to an error placeholder string. -/
def convertTaprootHashToAddress (pubkeyHash : String) : String :=
  let data := bufferFromHex pubkeyHash
  if data.length = 32 then bech32EncodeCore 0x2bc830a3 "tb" (1 :: toWords data)
  else "tb1p_error_" ++ jsSubstring pubkeyHash 0 8

/-- convertSegWitV0ToAddress: bech32 with the given witness version and the
tb prefix. -/
def convertSegWitV0ToAddress (hash : String) (version : Nat) : String :=
  let data := bufferFromHex hash
  if data.length = 20 ∨ data.length = 32 then
    bech32EncodeCore 1 "tb" (version :: toWords data)
  else "tb1q_error_" ++ jsSubstring hash 0 8

/-- convertLegacyP2PKHToAddress: Base58Check with the testnet P2PKH version
byte 0x6f. -/
def convertLegacyP2PKHToAddress (keyHash : String) : String :=
  let data := bufferFromHex keyHash
  if data.length = 20 then base58CheckEncode (0x6f :: data)
  else "m_error_" ++ jsSubstring keyHash 0 8

/-- convertLegacyP2SHToAddress: Base58Check with the testnet P2SH version
byte 0xc4. -/
def convertLegacyP2SHToAddress (scriptHash : String) : String :=
  let data := bufferFromHex scriptHash
  if data.length = 20 then base58CheckEncode (0xc4 :: data)
  else "2_error_" ++ jsSubstring scriptHash 0 8

end BlockParser

/-! ## The two descriptor regular expressions of extractAddressesFromOutput

The source matches desc against addr with a 26-to-63 character
alphanumeric payload and against rawtr with a 64 hex digit payload.  Both
patterns are resolved here by direct search: a greedy quantifier over a
character class that excludes the closing parenthesis admits exactly the
maximal run, so no backtracking can produce a different match. -/

/-- JavaScript character class a-zA-Z0-9 (ASCII only). -/
def isAlphaNumJs (c : Char) : Bool := c.isAlpha || c.isDigit

/-- Length of the maximal alphanumeric run at the head of the list. -/
def alnumRunLen : List Char → Nat
  | [] => 0
  | c :: rest => if isAlphaNumJs c then alnumRunLen rest + 1 else 0

/-- The leading character class of the addr descriptor payload. -/
def addrDescFirstChar (c : Char) : Bool := "13bc2mntb".data.contains c

/-- Match the addr pattern at the head of the list, returning the captured
payload: addr, opening parenthesis, one class character, 25 to 62
alphanumerics, closing parenthesis. -/
def matchAddrDescAt : List Char → Option String
  | 'a' :: 'd' :: 'd' :: 'r' :: '(' :: c0 :: rest =>
    if addrDescFirstChar c0 then
      let r := alnumRunLen rest
      if 25 ≤ r ∧ r ≤ 62 ∧ rest.getD r ' ' = ')' then
        Option.some (String.mk (c0 :: rest.take r))
      else Option.none
    else Option.none
  | _ => Option.none

/-- Match the rawtr pattern at the head of the list, returning the captured
64 hex digits. -/
def matchRawtrAt : List Char → Option String
  | 'r' :: 'a' :: 'w' :: 't' :: 'r' :: '(' :: rest =>
    let hx := rest.take 64
    if hx.length = 64 ∧ hx.all (fun c => (hexVal c).isSome) ∧ rest.getD 64 ' ' = ')' then
      Option.some (String.mk hx)
    else Option.none
  | _ => Option.none

/-- Leftmost match: try the pattern at every successive start position. -/
def scanMatch (f : List Char → Option String) : List Char → Option String
  | [] => f []
  | c :: rest =>
    match f (c :: rest) with
    | Option.some m => Option.some m
    | Option.none => scanMatch f rest

namespace BlockParser

/-- extractAddressesFromOutput (block-parser.ts lines 44-115): pre-decoded
addresses first, then the two descriptor patterns, then the script-type
branches keyed on the type tag and the hex template. -/
def extractAddressesFromOutput (output : TransactionOutput) : List String :=
  let spk := output.scriptPubKey
  if (spk.addresses.getD []).length > 0 then
    (spk.addresses.getD []).filter (fun a => a.length > 10)
  else
    let descResult : Option (List String) :=
      match spk.desc with
      | Option.some d =>
        match scanMatch matchAddrDescAt d.data with
        | Option.some m => Option.some [m]
        | Option.none =>
          match scanMatch matchRawtrAt d.data with
          | Option.some m => Option.some [convertTaprootHashToAddress m]
          | Option.none => Option.none
      | Option.none => Option.none
    match descResult with
    | Option.some r => r
    | Option.none =>
      if spk.type == "witness_v1_taproot" && spk.hex.length == 68 then
        [convertTaprootHashToAddress (jsSubstringFrom spk.hex 4)]
      else if spk.type == "witness_v0_keyhash" && spk.hex.length == 44 then
        [convertSegWitV0ToAddress (jsSubstringFrom spk.hex 4) 0]
      else if spk.type == "witness_v0_scripthash" && spk.hex.length == 68 then
        [convertSegWitV0ToAddress (jsSubstringFrom spk.hex 4) 0]
      else if spk.type == "pubkeyhash" && jsStartsWith spk.hex "76a914" && jsEndsWith spk.hex "88ac" then
        [convertLegacyP2PKHToAddress (jsSubstring spk.hex 6 46)]
      else if spk.type == "scripthash" && jsStartsWith spk.hex "a914" && jsEndsWith spk.hex "87" then
        [convertLegacyP2SHToAddress (jsSubstring spk.hex 4 44)]
      else []

/-- extractAddressesFromInput (block-parser.ts lines 117-158): only the
pre-decoded addresses field contributes; the witness and scriptSig branches
end in logging only. -/
def extractAddressesFromInput (input : TransactionInput) : List String :=
  match input.addresses with
  | Option.some l => l.filter (fun a => a.length > 10)
  | Option.none => []

/-- extractAddressesFromTransaction (block-parser.ts lines 25-42): flatten
the per-output and per-input address lists. -/
def extractAddressesFromTransaction (tx : Transaction) :
    List String × List String :=
  ((tx.vin.map extractAddressesFromInput).flatten,
   (tx.vout.map extractAddressesFromOutput).flatten)

end BlockParser

/-! ## Lossy UTF-8 decoding (Buffer.prototype.toString with utf8)

Node replaces every maximal invalid subsequence with U+FFFD, per the WHATWG
encoding standard; valid sequences decode to their code point. -/

/-- WHATWG UTF-8 decode with replacement, producing code points; the fuel is
an upper bound on the number of decoding steps (each step consumes at least
one byte, so the byte count suffices). -/
def utf8Go : Nat → List Nat → List Nat
  | 0, _ => []
  | fuel + 1, bytes =>
    match bytes with
    | [] => []
    | b :: rest =>
      if b < 128 then b :: utf8Go fuel rest
      else if 194 ≤ b ∧ b ≤ 223 then
        match rest with
        | b2 :: rest2 =>
          if 128 ≤ b2 ∧ b2 ≤ 191 then
            ((b - 192) * 64 + (b2 - 128)) :: utf8Go fuel rest2
          else 65533 :: utf8Go fuel rest
        | [] => [65533]
      else if 224 ≤ b ∧ b ≤ 239 then
        match rest with
        | b2 :: rest2 =>
          if (if b = 224 then 160 else 128) ≤ b2 ∧ b2 ≤ (if b = 237 then 159 else 191) then
            match rest2 with
            | b3 :: rest3 =>
              if 128 ≤ b3 ∧ b3 ≤ 191 then
                ((b - 224) * 4096 + (b2 - 128) * 64 + (b3 - 128)) :: utf8Go fuel rest3
              else 65533 :: utf8Go fuel rest2
            | [] => [65533]
          else 65533 :: utf8Go fuel rest
        | [] => [65533]
      else if 240 ≤ b ∧ b ≤ 244 then
        match rest with
        | b2 :: rest2 =>
          if (if b = 240 then 144 else 128) ≤ b2 ∧ b2 ≤ (if b = 244 then 143 else 191) then
            match rest2 with
            | b3 :: rest3 =>
              if 128 ≤ b3 ∧ b3 ≤ 191 then
                match rest3 with
                | b4 :: rest4 =>
                  if 128 ≤ b4 ∧ b4 ≤ 191 then
                    ((b - 240) * 262144 + (b2 - 128) * 4096 + (b3 - 128) * 64 + (b4 - 128)) ::
                      utf8Go fuel rest4
                  else 65533 :: utf8Go fuel rest3
                | [] => [65533]
              else 65533 :: utf8Go fuel rest2
            | [] => [65533]
          else 65533 :: utf8Go fuel rest
        | [] => [65533]
      else 65533 :: utf8Go fuel rest

/-- WHATWG UTF-8 decode with replacement over a byte list. -/
def utf8DecodeReplace (bytes : List Nat) : List Nat :=
  utf8Go bytes.length bytes

/-- Expand code points into UTF-16 code units (a JavaScript string is a
sequence of UTF-16 units, and both the length and the character-class test
of the printable check operate on units). -/
def toUtf16 (cps : List Nat) : List Nat :=
  (cps.map (fun c =>
    if c < 65536 then [c]
    else [55296 + (c - 65536) / 1024, 56320 + (c - 65536) % 1024])).flatten

/-- The character class of the printable-string test of decodeOpReturnData:
x20 to x7E, or u00A0 to uFFFF (which contains U+FFFD). -/
def isPrintableUnit (u : Nat) : Bool :=
  (32 ≤ u && u ≤ 126) || (160 ≤ u && u ≤ 65535)

/-! ## JavaScript parseInt with radix 16 (used on the length byte) -/

/-- JavaScript whitespace for the purposes of parseInt trimming. -/
def jsWhitespace (c : Char) : Bool :=
  c = ' ' ∨ c = '\t' ∨ c = '\n' ∨ c = '\r'

/-- Value of the longest leading run of hex digits; fails when there is
none. -/
def hexRunVal : List Char → Nat → Bool → Option Nat
  | [], acc, seen => if seen then Option.some acc else Option.none
  | c :: rest, acc, seen =>
    match hexVal c with
    | Option.some v => hexRunVal rest (acc * 16 + v) true
    | Option.none => if seen then Option.some acc else Option.none

/-- Strip an optional 0x or 0X marker, as parseInt does for radix 16. -/
def strip0x : List Char → List Char
  | '0' :: 'x' :: rest => rest
  | '0' :: 'X' :: rest => rest
  | cs => cs

/-- JavaScript parseInt(s, 16): trim whitespace, read an optional sign and
an optional 0x marker, then the longest run of hex digits; NaN (no digits)
is the Option.none case. -/
def jsParseIntHex (s : String) : Option Int :=
  match s.data.dropWhile jsWhitespace with
  | '+' :: rest => (hexRunVal (strip0x rest) 0 false).map Int.ofNat
  | '-' :: rest => (hexRunVal (strip0x rest) 0 false).map (fun n => -(n : Int))
  | rest => (hexRunVal (strip0x rest) 0 false).map Int.ofNat

/-! ## OP_RETURN extraction (block-parser.ts lines 160-184 and 287-310) -/

/-- OpReturnData from bitcoin.ts; the decoded string is modelled as its list
of UTF-16 code units. -/
structure OpReturnData where
  hex : String
  decoded : Option (List Nat)
  decodingSuccess : Bool
deriving DecidableEq, Repr

namespace BlockParser

/-- decodeOpReturnData (lines 287-310): decode the payload bytes as lossy
UTF-8 and accept the result exactly when it is nonempty and every UTF-16
unit falls in the printable class. -/
def decodeOpReturnData (hexData : String) : OpReturnData :=
  let buffer := bufferFromHex hexData
  let decoded := toUtf16 (utf8DecodeReplace buffer)
  if decoded.all isPrintableUnit ∧ decoded.length > 0 then
    ⟨hexData, Option.some decoded, true⟩
  else ⟨hexData, Option.none, false⟩

/-- Scan the outputs for the first nulldata script whose hex starts with 6a;
strip the opcode and, when the length byte parses and fits, cut the payload
to the announced length (lines 160-184). -/
def extractOpReturnDataGo : List TransactionOutput → Option OpReturnData
  | [] => Option.none
  | o :: rest =>
    if o.scriptPubKey.type == "nulldata" then
      let hx := o.scriptPubKey.hex
      if jsStartsWith hx "6a" then
        let dataHex0 := jsSubstringFrom hx 4
        let dataHex :=
          if 6 ≤ hx.length then
            match jsParseIntHex (jsSubstring hx 2 4) with
            | Option.some len =>
              if 0 < len ∧ 4 + len.toNat * 2 ≤ hx.length then
                jsSubstring hx 4 (4 + len.toNat * 2)
              else dataHex0
            | Option.none => dataHex0
          else dataHex0
        Option.some (decodeOpReturnData dataHex)
      else extractOpReturnDataGo rest
    else extractOpReturnDataGo rest

/-- extractOpReturnData over a transaction. -/
def extractOpReturnData (tx : Transaction) : Option OpReturnData :=
  extractOpReturnDataGo tx.vout

end BlockParser

/-! ## Address detector (src/unnamed/part_013, the version the repository
tests construct; its determineTransactionType, calculateBalanceDifference
and calculateTotalBTC bodies are identical to the ones in
src/src/services/address-detector.ts lines 130-179) -/

namespace AddressDetector

/-- The two private fields of the AddressDetector class: the watched address
set (Set of the object keys, insertion order, first occurrence wins) and the
name map (Map of the object entries). -/
structure AddressDetectorState where
  watchedAddresses : List String
  addressNames : List (String × String)
deriving DecidableEq, Repr

/-- Keys of a JavaScript object in insertion order: the first occurrence of
each key survives. -/
def uniqueKeys : List String → List String
  | [] => []
  | k :: rest => k :: (uniqueKeys rest).filter (fun a => a ≠ k)

/-- Map.prototype.get over the entry list (for a JavaScript object the keys
are unique; the last entry wins, as in Map construction). -/
def mapGet (entries : List (String × String)) (k : String) : Option String :=
  (entries.reverse.find? (fun e => e.1 == k)).map Prod.snd

/-- The constructor and updateWatchedAddresses both build the state this
way (part_013 lines 16-25). -/
def AddressDetectorState.ofWatched (addresses : List (String × String)) :
    AddressDetectorState :=
  ⟨uniqueKeys (addresses.map Prod.fst), addresses⟩

/-- updateWatchedAddresses: wholesale replacement of both fields. -/
def updateWatchedAddresses (_st : AddressDetectorState)
    (addresses : List (String × String)) : AddressDetectorState :=
  AddressDetectorState.ofWatched addresses

/-- determineAddressType (part_013 lines 277-311): display classification
from the address text alone. -/
def determineAddressType (address : String) : AddressType :=
  if jsStartsWith address "1" then AddressType.legacyP2PKH
  else if jsStartsWith address "3" then AddressType.legacyP2SH
  else if jsStartsWith address "bc1q" then AddressType.segwitBech32
  else if jsStartsWith address "bc1p" then AddressType.taprootP2TR
  else if jsStartsWith address "tb1q" then AddressType.segwitBech32
  else if jsStartsWith address "tb1p" then AddressType.taprootP2TR
  else if jsStartsWith address "m" || jsStartsWith address "n" then AddressType.legacyP2PKH
  else if jsStartsWith address "2" then AddressType.legacyP2SH
  else AddressType.unknown

/-- determineTransactionType (part_013 lines 229-252, identical in
address-detector.ts lines 130-149). -/
def determineTransactionType (invs : List AddressInvolvement) : TransactionType :=
  if invs.length = 0 then TransactionType.none
  else
    let hasInputs := invs.any (fun inv => inv.direction == Direction.input)
    let hasOutputs := invs.any (fun inv => inv.direction == Direction.output)
    if hasInputs && hasOutputs then TransactionType.both
    else if hasInputs then TransactionType.outgoing
    else if hasOutputs then TransactionType.incoming
    else TransactionType.none

/-- calculateBalanceDifference (part_013 lines 254-269, identical in
address-detector.ts lines 156-170): total of output amounts minus total of
input amounts, via the two running accumulators of the source loop. -/
def calculateBalanceDifference (invs : List AddressInvolvement) : Rat :=
  let t := invs.foldl
    (fun (acc : Rat × Rat) inv =>
      match inv.direction with
      | Direction.output => (acc.1 + inv.amount, acc.2)
      | Direction.input => (acc.1, acc.2 + inv.amount))
    (0, 0)
  t.1 - t.2

/-- calculateTotalBTC (part_013 lines 271-275, identical in
address-detector.ts lines 175-179): sum of all involvement amounts. -/
def calculateTotalBTC (invs : List AddressInvolvement) : Rat :=
  invs.foldl (fun total inv => total + inv.amount) 0

/-- One output of a previous transaction as returned by getRawTransaction
(the fields processInputsViaRPC reads). -/
structure PrevOut where
  value : Rat
  scriptPubKeyAddress : Option String
  scriptPubKeyAddresses : Option (List String)
deriving DecidableEq, Repr

/-- A previous transaction as returned by getRawTransaction. -/
structure PrevTx where
  vout : List PrevOut
deriving DecidableEq, Repr

/-- extractInputAmountFromTransactionPart (part_013 lines 201-227).  The
oracle models rpcClient.getRawTransaction; Option.none is a rejected call.
The input argument is the element lookup transactionParts at index, whose
absence raises inside the try block before any call is made and is caught,
yielding 0.  The second component is the list of txids looked up. -/
def extractInputAmountFromTransactionPart (oracle : String → Option PrevTx)
    (hasRpc : Bool) (input : Option TransactionInput) : Rat × List String :=
  if !hasRpc then (0, [])
  else
    match input with
    | Option.none => (0, [])
    | Option.some i =>
      match oracle i.txid with
      | Option.none => (0, [i.txid])
      | Option.some prevTx =>
        match prevTx.vout[i.vout]? with
        | Option.some p => (p.value, [i.txid])
        | Option.none => (0, [i.txid])

/-- The output-direction pass of processAddresses (part_013 lines 84-113):
for each extracted address, in order and with its position index, a watched
address records an output involvement whose amount is the value of the
output at that index; a missing output at that index raises (undefined
value access), modelled as the error case. -/
def processOutputAddressesGo (st : AddressDetectorState)
    (vout : List TransactionOutput) : List String → Nat →
    Except Unit (List AddressInvolvement)
  | [], _ => Except.ok []
  | a :: rest, i =>
    if st.watchedAddresses.contains a then
      match vout[i]? with
      | Option.some part =>
        match processOutputAddressesGo st vout rest (i + 1) with
        | Except.ok tl =>
          Except.ok
            (⟨a, mapGet st.addressNames a, Direction.output, part.value,
              Option.some (determineAddressType a)⟩ :: tl)
        | Except.error e => Except.error e
      | Option.none => Except.error ()
    else processOutputAddressesGo st vout rest (i + 1)

/-- The input-direction pass of processAddresses when pre-decoded input
addresses exist: watched addresses record input involvements whose amounts
come from extractInputAmountFromTransactionPart. -/
def processInputAddressesGo (st : AddressDetectorState)
    (oracle : String → Option PrevTx) (hasRpc : Bool)
    (vin : List TransactionInput) : List String → Nat →
    List AddressInvolvement × List String
  | [], _ => ([], [])
  | a :: rest, i =>
    let tl := processInputAddressesGo st oracle hasRpc vin rest (i + 1)
    if st.watchedAddresses.contains a then
      let r := extractInputAmountFromTransactionPart oracle hasRpc vin[i]?
      (⟨a, mapGet st.addressNames a, Direction.input, r.1,
          Option.some (determineAddressType a)⟩ :: tl.1,
        r.2 ++ tl.2)
    else tl

/-- chunkArray with the MAX_CONCURRENT_REQUESTS chunk size of 5 (part_013
lines 119-120 and 183-189), with the list length as recursion fuel. -/
def chunkArrayAux : Nat → List α → List (List α)
  | 0, _ => []
  | _, [] => []
  | fuel + 1, l => l.take 5 :: chunkArrayAux fuel (l.drop 5)

/-- chunkArray specialised to chunk size 5. -/
def chunkArray5 (l : List α) : List (List α) := chunkArrayAux l.length l

/-- Handling of one input inside processInputsViaRPC (part_013 lines
123-177): skip empty-txid and coinbase inputs without a lookup; a failed
lookup or a missing referenced output contributes nothing; otherwise every
watched address among the referenced output's address fields records an
input involvement with that output's value. -/
def processOneInputViaRPC (st : AddressDetectorState)
    (oracle : String → Option PrevTx) (input : TransactionInput) :
    List AddressInvolvement × List String :=
  if input.txid == "" || input.coinbase then ([], [])
  else
    match oracle input.txid with
    | Option.none => ([], [input.txid])
    | Option.some prevTx =>
      match prevTx.vout[input.vout]? with
      | Option.none => ([], [input.txid])
      | Option.some prevOutput =>
        let addrs :=
          (match prevOutput.scriptPubKeyAddress with
            | Option.some a => [a]
            | Option.none => []) ++ prevOutput.scriptPubKeyAddresses.getD []
        (addrs.filterMap (fun a =>
            if st.watchedAddresses.contains a then
              Option.some ⟨a, mapGet st.addressNames a, Direction.input,
                prevOutput.value, Option.some (determineAddressType a)⟩
            else Option.none),
          [input.txid])

/-- processInputsViaRPC (part_013 lines 115-181): the inputs are processed
in chunks of 5 concurrent lookups; the chunking affects only the request
schedule, the appended involvements keep input order. -/
def processInputsViaRPC (st : AddressDetectorState)
    (oracle : String → Option PrevTx) (vin : List TransactionInput) :
    List AddressInvolvement × List String :=
  (chunkArray5 vin).foldl
    (fun acc chunk =>
      chunk.foldl
        (fun acc2 input =>
          let r := processOneInputViaRPC st oracle input
          (acc2.1 ++ r.1, acc2.2 ++ r.2))
        acc)
    ([], [])

/-- The input-direction dispatch of processAddresses (part_013 lines 76-82):
with no pre-decoded input addresses and an rpc client present the inputs are
resolved through RPC, otherwise the pre-decoded list is scanned. -/
def processInputAddresses (st : AddressDetectorState)
    (oracle : String → Option PrevTx) (hasRpc : Bool)
    (vin : List TransactionInput) (addresses : List String) :
    List AddressInvolvement × List String :=
  if addresses.isEmpty && hasRpc then processInputsViaRPC st oracle vin
  else processInputAddressesGo st oracle hasRpc vin addresses 0

/-- The record detectAddressesInTransaction resolves with. -/
structure DetectionResult where
  hasWatchedAddress : Bool
  addressInvolvements : List AddressInvolvement
  transactionType : TransactionType
  senders : List String
  receivers : List String
deriving DecidableEq, Repr

/-- detectAddressesInTransaction (part_013 lines 27-68): the outputs are
scanned first; the inputs are examined only when the output pass recorded at
least one involvement.  The second component is the trace of RPC lookups
performed (txids passed to getRawTransaction). -/
def detectAddressesInTransaction (st : AddressDetectorState)
    (oracle : String → Option PrevTx) (hasRpc : Bool) (tx : Transaction) :
    Except Unit DetectionResult × List String :=
  let extracted := BlockParser.extractAddressesFromTransaction tx
  match processOutputAddressesGo st tx.vout extracted.2 0 with
  | Except.error () => (Except.error (), [])
  | Except.ok outInvs =>
    let hasWatchedOutputs := outInvs.length > 0
    let inputsRes :=
      if hasWatchedOutputs then
        processInputAddresses st oracle hasRpc tx.vin extracted.1
      else ([], [])
    let invs := outInvs ++ inputsRes.1
    (Except.ok
      { hasWatchedAddress := invs.length > 0
        addressInvolvements := invs
        transactionType := determineTransactionType invs
        senders := extracted.1.filter (fun a => a.length > 10)
        receivers := extracted.2.filter (fun a => a.length > 10) },
      inputsRes.2)

end AddressDetector

/-! ## Block monitor state, notification building and status
(src/src/services/block-monitor.ts) -/

namespace BlockMonitor

/-- BitcoinAddress from bitcoin.ts. -/
structure BitcoinAddress where
  address : String
  name : Option String
deriving DecidableEq, Repr

/-- Config from bitcoin.ts (the fields the monitor reads). -/
structure Config where
  rpcUrl : String
  addresses : List BitcoinAddress
  pollingIntervalMs : Nat
  maxMemoryMB : Rat
  usdPriceEnabled : Bool
deriving DecidableEq, Repr

/-- The mutable fields of the BlockMonitor class relevant to status and
reconfiguration. -/
structure BlockMonitorState where
  config : Config
  addressDetector : AddressDetector.AddressDetectorState
  isRunning : Bool
  lastProcessedBlock : Nat
deriving DecidableEq, Repr

/-- The record getStatus returns. -/
structure MonitorStatus where
  isRunning : Bool
  lastProcessedBlock : Nat
  watchedAddresses : Nat
  memoryUsage : Rat
deriving DecidableEq, Repr

/-- updateWatchedAddresses (block-monitor.ts lines 319-322): delegates to
the detector and touches nothing else. -/
def updateWatchedAddresses (m : BlockMonitorState)
    (addresses : List (String × String)) : BlockMonitorState :=
  { m with addressDetector :=
      AddressDetector.updateWatchedAddresses m.addressDetector addresses }

/-- getStatus (block-monitor.ts lines 327-341): the watched-address count
reported is the length of the startup configuration address list. -/
def getStatus (m : BlockMonitorState) (heapUsedBytes : Rat) : MonitorStatus :=
  { isRunning := m.isRunning
    lastProcessedBlock := m.lastProcessedBlock
    watchedAddresses := m.config.addresses.length
    memoryUsage := heapUsedBytes / (1024 * 1024) }

/-- TransactionNotification from bitcoin.ts (the fields
createTransactionNotification fills). -/
structure TransactionNotification where
  timestamp : Nat
  blockHeight : Nat
  blockHash : String
  txHash : String
  type : TransactionType
  addresses : List AddressInvolvement
  totalBTC : Rat
  balanceDifference : Option Rat
  opReturnData : Option OpReturnData
deriving DecidableEq, Repr

/-- createTransactionNotification (block-monitor.ts lines 286-314): the
balance difference is computed only for transactions of type both. -/
def createTransactionNotification (timestamp : Nat) (tx : Transaction)
    (block : RawBlock) (d : AddressDetector.DetectionResult) :
    TransactionNotification :=
  { timestamp := timestamp
    blockHeight := block.height
    blockHash := block.hash
    txHash := tx.txid
    type := d.transactionType
    addresses := d.addressInvolvements
    totalBTC := AddressDetector.calculateTotalBTC d.addressInvolvements
    balanceDifference :=
      if d.transactionType = TransactionType.both then
        Option.some (AddressDetector.calculateBalanceDifference d.addressInvolvements)
      else Option.none
    opReturnData := BlockParser.extractOpReturnData tx }

end BlockMonitor

/-! # Theorems -/

/-! ## Supporting lemmas for the involvement arithmetic -/

theorem foldl_add_amount (invs : List AddressInvolvement) :
    ∀ c : Rat, invs.foldl (fun total inv => total + inv.amount) c =
      c + (invs.map (fun inv => inv.amount)).sum := by
  induction invs with
  | nil => intro c; simp
  | cons i rest ih => intro c; simp [ih, add_assoc]

theorem foldl_balance_acc (invs : List AddressInvolvement) :
    ∀ p : Rat × Rat,
      invs.foldl
        (fun (acc : Rat × Rat) inv =>
          match inv.direction with
          | Direction.output => (acc.1 + inv.amount, acc.2)
          | Direction.input => (acc.1, acc.2 + inv.amount)) p =
      (p.1 + ((invs.filter (fun inv => inv.direction == Direction.output)).map
          (fun inv => inv.amount)).sum,
       p.2 + ((invs.filter (fun inv => inv.direction == Direction.input)).map
          (fun inv => inv.amount)).sum) := by
  induction invs with
  | nil => intro p; simp
  | cons i rest ih =>
    intro p
    cases hd : i.direction <;>
      simp [List.foldl_cons, List.filter_cons, hd, ih, add_assoc]

/-- C1: for every detection result, totalBTC is the sum of all involvement
amounts over both directions; the notification balanceDifference is the sum
of output-direction amounts minus the sum of input-direction amounts and is
present exactly when the transaction type is both; and the example with one
watched input of 2.0 and one watched output of 1.5 on the same address is
classified both with balance difference exactly minus 0.5. -/
theorem totalBTC_and_balanceDifference_spec :
    (∀ invs : List AddressInvolvement,
      AddressDetector.calculateTotalBTC invs =
        (invs.map (fun inv => inv.amount)).sum) ∧
    (∀ invs : List AddressInvolvement,
      AddressDetector.calculateBalanceDifference invs =
        ((invs.filter (fun inv => inv.direction == Direction.output)).map
          (fun inv => inv.amount)).sum -
        ((invs.filter (fun inv => inv.direction == Direction.input)).map
          (fun inv => inv.amount)).sum) ∧
    (∀ (ts : Nat) (tx : Transaction) (blk : RawBlock)
        (d : AddressDetector.DetectionResult),
      (BlockMonitor.createTransactionNotification ts tx blk d).totalBTC =
        AddressDetector.calculateTotalBTC d.addressInvolvements ∧
      (BlockMonitor.createTransactionNotification ts tx blk d).balanceDifference =
        (if d.transactionType = TransactionType.both then
          Option.some (AddressDetector.calculateBalanceDifference d.addressInvolvements)
         else Option.none)) ∧
    (AddressDetector.determineTransactionType
        [⟨"addrW", Option.none, Direction.input, 2, Option.none⟩,
         ⟨"addrW", Option.none, Direction.output, 3 / 2, Option.none⟩] =
       TransactionType.both ∧
     AddressDetector.calculateBalanceDifference
        [⟨"addrW", Option.none, Direction.input, 2, Option.none⟩,
         ⟨"addrW", Option.none, Direction.output, 3 / 2, Option.none⟩] = -(1 / 2)) := by
  refine ⟨?_, ?_, ?_, ?_⟩
  · intro invs
    simpa [AddressDetector.calculateTotalBTC] using foldl_add_amount invs 0
  · intro invs
    rw [AddressDetector.calculateBalanceDifference, foldl_balance_acc]
    simp
  · intro ts tx blk d
    exact ⟨rfl, rfl⟩
  · constructor
    · rfl
    · rw [AddressDetector.calculateBalanceDifference]
      norm_num [List.foldl]

/-! ## C2: the RPC retry loop -/

/-- C2 counterexample: with a node-reported error on attempt 1 and a success
on attempt 2, callRPC sleeps the 2 second backoff, retries, and returns the
attempt-2 result — the node-reported error is retried, not surfaced
immediately, contradicting the claim. -/
theorem callRPC_node_error_retried :
    (BitcoinRPCClient.callRPC
      (fun n => if n = 1 then BitcoinRPCClient.AttemptOutcome.nodeError "boom"
        else BitcoinRPCClient.AttemptOutcome.success 7) 3).result = Except.ok 7 ∧
    (BitcoinRPCClient.callRPC
      (fun n => if n = 1 then BitcoinRPCClient.AttemptOutcome.nodeError "boom"
        else BitcoinRPCClient.AttemptOutcome.success 7) 3).attemptsUsed = 2 ∧
    (BitcoinRPCClient.callRPC
      (fun n => if n = 1 then BitcoinRPCClient.AttemptOutcome.nodeError "boom"
        else BitcoinRPCClient.AttemptOutcome.success 7) 3).delays = [2000] :=
  ⟨rfl, rfl, rfl⟩

/-- C2 amended: every RPC call makes between 1 and 3 attempts; each attempt
that is followed by another one (because it failed, at transport level or
with a node-reported error) is followed by the exponential backoff delay of
2 to the power attempt seconds — 2s after attempt 1, 4s after attempt 2 —
and a node-reported error on a non-final attempt is retried exactly like a
transport failure rather than surfaced immediately. -/
theorem callRPC_retry_discipline :
    ∀ (T : Type) (o : Nat → BitcoinRPCClient.AttemptOutcome T),
      1 ≤ (BitcoinRPCClient.callRPC o 3).attemptsUsed ∧
      (BitcoinRPCClient.callRPC o 3).attemptsUsed ≤ 3 ∧
      (BitcoinRPCClient.callRPC o 3).delays =
        (List.range ((BitcoinRPCClient.callRPC o 3).attemptsUsed - 1)).map
          (fun i => 2 ^ (i + 1) * 1000) ∧
      (∀ m, o 1 = BitcoinRPCClient.AttemptOutcome.nodeError m →
        2 ≤ (BitcoinRPCClient.callRPC o 3).attemptsUsed) := by
  intro T o
  cases h1 : o 1 <;> cases h2 : o 2 <;> cases h3 : o 3 <;>
    simp [BitcoinRPCClient.callRPC, BitcoinRPCClient.callRPCGo, h1, h2, h3,
      List.range_succ]

/-- C2 witness: the amended theorem applied at the concrete outcome function
of the counterexample, discharging the node-error hypothesis. -/
theorem callRPC_retry_discipline_witness :
    2 ≤ (BitcoinRPCClient.callRPC
      (fun n => if n = 1 then BitcoinRPCClient.AttemptOutcome.nodeError "boom"
        else BitcoinRPCClient.AttemptOutcome.success 7) 3).attemptsUsed :=
  (callRPC_retry_discipline Nat
    (fun n => if n = 1 then BitcoinRPCClient.AttemptOutcome.nodeError "boom"
      else BitcoinRPCClient.AttemptOutcome.success 7)).2.2.2 "boom" (by simp)

/-! ## C5: the watermark never advances past a failed block -/

theorem processHeights_stops_at_failure (blockOk : Nat → Bool) (H : Nat) :
    ∀ n wm, wm < H → H ≤ wm + n →
      (∀ h, wm < h → h < H → blockOk h = true) → blockOk H = false →
      BlockMonitor.processHeights blockOk (List.range' (wm + 1) n) wm =
        (H - 1, Option.some H) := by
  intro n
  induction n with
  | zero => intro wm h1 h2 _ _; omega
  | succ k ih =>
    intro wm h1 h2 hok hfail
    rw [List.range'_succ]
    by_cases hH : H = wm + 1
    · subst hH
      simp [BlockMonitor.processHeights, hfail]
    · have hlt : wm + 1 < H := by omega
      have hok1 : blockOk (wm + 1) = true := hok (wm + 1) (by omega) hlt
      simp only [BlockMonitor.processHeights, hok1, if_true]
      exact ih (wm + 1) (by omega) (by omega)
        (fun h ha hb => hok h (by omega) hb) hfail

/-- C5: if every block strictly between the watermark and H processes
successfully and processing H fails, the poll cycle ends with the watermark
at H - 1 and reports the failure at H; the next cycle then starts again at
exactly height H, so no block is skipped and none is advanced twice. -/
theorem watermark_stops_at_failed_block :
    ∀ (blockOk : Nat → Bool) (wm H currentBlock : Nat),
      wm < H → H ≤ currentBlock →
      (∀ h, wm < h → h < H → blockOk h = true) → blockOk H = false →
      BlockMonitor.pollForNewBlocks blockOk currentBlock wm = (H - 1, Option.some H) ∧
      (∀ newTip, H ≤ newTip →
        (BlockMonitor.cycleHeights (H - 1) newTip).head? = Option.some H) := by
  intro blockOk wm H currentBlock h1 h2 hok hfail
  constructor
  · rw [BlockMonitor.pollForNewBlocks, if_pos (by omega)]
    exact processHeights_stops_at_failure blockOk H (currentBlock - wm) wm h1
      (by omega) hok hfail
  · intro newTip htip
    have hpos : newTip - (H - 1) = (newTip - H) + 1 := by omega
    rw [BlockMonitor.cycleHeights, hpos, List.range'_succ]
    have : H - 1 + 1 = H := by omega
    rw [this]
    rfl

/-- C5 witness: blocks 4 succeeds and block 5 fails with the watermark at 3
and the tip at 7: the cycle ends at watermark 4 reporting 5, and the next
cycle attempts 5 first. -/
theorem watermark_stops_at_failed_block_witness :
    BlockMonitor.pollForNewBlocks (fun h => decide (h ≠ 5)) 7 3 = (4, Option.some 5) ∧
    (BlockMonitor.cycleHeights 4 7).head? = Option.some 5 := by
  have r := watermark_stops_at_failed_block (fun h => decide (h ≠ 5)) 3 5 7
    (by omega) (by omega)
    (by intro h ha hb
        have h4 : h = 4 := by omega
        rw [h4]
        rfl)
    (by rfl)
  exact ⟨r.1, r.2 7 (by omega)⟩

/-! ## C8: the memory pressure query -/

/-- C8: checkMemoryLimit is a total query of the heap reading and the
ceiling alone — the BlockParser class has no mutable state and the detector
state does not appear in its signature — and for every ceiling, including
zero and negative ones, it reports over limit exactly when current usage
exceeds the ceiling and warns exactly when usage exceeds 80 percent of the
ceiling. -/
theorem checkMemoryLimit_pure_query :
    ∀ heapUsedBytes maxMemoryMB : Rat,
      (BlockParser.checkMemoryLimit heapUsedBytes maxMemoryMB).usage =
        heapUsedBytes / (1024 * 1024) ∧
      ((BlockParser.checkMemoryLimit heapUsedBytes maxMemoryMB).isOverLimit = true ↔
        heapUsedBytes / (1024 * 1024) > maxMemoryMB) ∧
      ((BlockParser.checkMemoryLimit heapUsedBytes maxMemoryMB).warned = true ↔
        heapUsedBytes / (1024 * 1024) > maxMemoryMB * (8 / 10)) := by
  intro heap limit
  refine ⟨rfl, ?_, ?_⟩ <;> simp [BlockParser.checkMemoryLimit]

/-! ## Supporting lemmas for the detector -/

theorem determineTransactionType_characterization (invs : List AddressInvolvement) :
    (AddressDetector.determineTransactionType invs = TransactionType.none ↔ invs = []) ∧
    (AddressDetector.determineTransactionType invs = TransactionType.both ↔
      invs.any (fun x => x.direction == Direction.input) = true ∧
      invs.any (fun x => x.direction == Direction.output) = true) ∧
    (AddressDetector.determineTransactionType invs = TransactionType.outgoing ↔
      invs.any (fun x => x.direction == Direction.input) = true ∧
      invs.any (fun x => x.direction == Direction.output) = false) ∧
    (AddressDetector.determineTransactionType invs = TransactionType.incoming ↔
      invs.any (fun x => x.direction == Direction.input) = false ∧
      invs.any (fun x => x.direction == Direction.output) = true) := by
  cases invs with
  | nil => simp [AddressDetector.determineTransactionType]
  | cons i rest =>
    cases hdir : i.direction <;>
      cases hrin : rest.any (fun x => x.direction == Direction.input) <;>
      cases hrout : rest.any (fun x => x.direction == Direction.output) <;>
        simp [AddressDetector.determineTransactionType, hdir, hrin, hrout]

theorem processOutputAddressesGo_no_watched
    (st : AddressDetector.AddressDetectorState) (vout : List TransactionOutput) :
    ∀ (addrs : List String) (i : Nat),
      (∀ a ∈ addrs, st.watchedAddresses.contains a = false) →
      AddressDetector.processOutputAddressesGo st vout addrs i = Except.ok [] := by
  intro addrs
  induction addrs with
  | nil => intro i _; rfl
  | cons a rest ih =>
    intro i h
    have ha : st.watchedAddresses.contains a = false := h a (by simp)
    have hr := ih (i + 1) (fun x hx => h x (by simp [hx]))
    simp only [AddressDetector.processOutputAddressesGo]
    rw [ha]
    simpa using hr

theorem processOutputAddressesGo_direction
    (st : AddressDetector.AddressDetectorState) (vout : List TransactionOutput) :
    ∀ (addrs : List String) (i : Nat) (l : List AddressInvolvement),
      AddressDetector.processOutputAddressesGo st vout addrs i = Except.ok l →
      ∀ inv ∈ l, inv.direction = Direction.output := by
  intro addrs
  induction addrs with
  | nil =>
    intro i l h inv hm
    have hl : ([] : List AddressInvolvement) = l := Except.ok.inj h
    rw [← hl] at hm
    simp at hm
  | cons a rest ih =>
    intro i l h inv hm
    simp only [AddressDetector.processOutputAddressesGo] at h
    cases hc : st.watchedAddresses.contains a with
    | false =>
      rw [hc] at h
      simp only [Bool.false_eq_true, if_false] at h
      exact ih (i + 1) l h inv hm
    | true =>
      rw [hc] at h
      simp only [if_true] at h
      cases hv : vout[i]? with
      | none =>
        rw [hv] at h
        exact Except.noConfusion
          (show (Except.error () : Except Unit (List AddressInvolvement)) =
            Except.ok l from h)
      | some part =>
        rw [hv] at h
        cases hrec : AddressDetector.processOutputAddressesGo st vout rest (i + 1) with
        | error e =>
          rw [hrec] at h
          exact Except.noConfusion
            (show (Except.error e : Except Unit (List AddressInvolvement)) =
              Except.ok l from h)
        | ok tl =>
          rw [hrec] at h
          have h2 : Except.ok
              (({ address := a, name := AddressDetector.mapGet st.addressNames a,
                  direction := Direction.output, amount := part.value,
                  addressType := Option.some (AddressDetector.determineAddressType a) } :
                AddressInvolvement) :: tl) = Except.ok l := h
          have hl := Except.ok.inj h2
          rw [← hl] at hm
          rcases List.mem_cons.mp hm with hhead | htail
          · rw [hhead]
          · exact ih (i + 1) tl hrec inv htail

/-- Shared equation: when no extracted output address is watched, the whole
detection result is the empty one and no RPC lookup happens. -/
theorem detect_no_watched_outputs_eq
    (st : AddressDetector.AddressDetectorState)
    (oracle : String → Option AddressDetector.PrevTx) (hasRpc : Bool)
    (tx : Transaction)
    (h : ∀ a ∈ (BlockParser.extractAddressesFromTransaction tx).2,
      st.watchedAddresses.contains a = false) :
    AddressDetector.detectAddressesInTransaction st oracle hasRpc tx =
      (Except.ok
        { hasWatchedAddress := false
          addressInvolvements := []
          transactionType := TransactionType.none
          senders := (BlockParser.extractAddressesFromTransaction tx).1.filter
            (fun a => a.length > 10)
          receivers := (BlockParser.extractAddressesFromTransaction tx).2.filter
            (fun a => a.length > 10) }, []) := by
  have h0 := processOutputAddressesGo_no_watched st tx.vout
    (BlockParser.extractAddressesFromTransaction tx).2 0 h
  simp [AddressDetector.detectAddressesInTransaction, h0,
    AddressDetector.determineTransactionType]

/-! ## C4: outputs are tested first, inputs only after an output match -/

/-- C4: for every transaction whose outputs contain no watched address, the
detector performs no RPC input lookup (the lookup trace is empty), records
no involvement at all (in particular no input involvement), and its entire
result is independent of the RPC oracle and of the presence of an RPC
client — the inputs are examined only when the output pass found at least
one watched output. -/
theorem detect_examines_inputs_only_after_output_match :
    ∀ (st : AddressDetector.AddressDetectorState)
      (oracle : String → Option AddressDetector.PrevTx) (hasRpc : Bool)
      (tx : Transaction),
      (∀ a ∈ (BlockParser.extractAddressesFromTransaction tx).2,
        st.watchedAddresses.contains a = false) →
      (AddressDetector.detectAddressesInTransaction st oracle hasRpc tx).2 = [] ∧
      (∃ r, (AddressDetector.detectAddressesInTransaction st oracle hasRpc tx).1 =
        Except.ok r ∧ r.addressInvolvements = []) ∧
      (∀ (oracle2 : String → Option AddressDetector.PrevTx) (hasRpc2 : Bool),
        AddressDetector.detectAddressesInTransaction st oracle hasRpc tx =
          AddressDetector.detectAddressesInTransaction st oracle2 hasRpc2 tx) := by
  intro st oracle hasRpc tx h
  have hd := detect_no_watched_outputs_eq st oracle hasRpc tx h
  refine ⟨by rw [hd], ⟨_, by rw [hd], rfl⟩, ?_⟩
  intro oracle2 hasRpc2
  rw [hd, detect_no_watched_outputs_eq st oracle2 hasRpc2 tx h]

/-- C4 witness: a transaction with one watched input address and one
unwatched output address: the detector performs no lookup and records
nothing. -/
theorem detect_examines_inputs_only_after_output_match_witness :
    (AddressDetector.detectAddressesInTransaction
      (AddressDetector.AddressDetectorState.ofWatched [("watchedInput11", "w")])
      (fun _ => Option.none) true
      ⟨"tx1", [⟨"prev1", 0, false, Option.some ["watchedInput11"], ""⟩],
        [⟨5, 0, ⟨"", "", "pubkeyhash",
          Option.some ["unwatchedOut11"], Option.none, Option.none⟩⟩]⟩).2 = [] ∧
    (∃ r, (AddressDetector.detectAddressesInTransaction
      (AddressDetector.AddressDetectorState.ofWatched [("watchedInput11", "w")])
      (fun _ => Option.none) true
      ⟨"tx1", [⟨"prev1", 0, false, Option.some ["watchedInput11"], ""⟩],
        [⟨5, 0, ⟨"", "", "pubkeyhash",
          Option.some ["unwatchedOut11"], Option.none, Option.none⟩⟩]⟩).1 =
      Except.ok r ∧ r.addressInvolvements = []) := by
  have r := detect_examines_inputs_only_after_output_match
    (AddressDetector.AddressDetectorState.ofWatched [("watchedInput11", "w")])
    (fun _ => Option.none) true
    ⟨"tx1", [⟨"prev1", 0, false, Option.some ["watchedInput11"], ""⟩],
      [⟨5, 0, ⟨"", "", "pubkeyhash",
        Option.some ["unwatchedOut11"], Option.none, Option.none⟩⟩]⟩
    (by decide)
  exact ⟨r.1, r.2.1⟩

/-! ## C6: transaction type classification and the two examples -/

/-- C6: the involvement-list classification — both when watched addresses
appear in both directions, outgoing when only in inputs, incoming when only
in outputs, none exactly when the involvement list is empty; a transaction
touching no watch-list address yields type none with an empty involvement
list; and a single output paying a watched address 0.001 yields exactly one
output involvement with amount 0.001 and type incoming. -/
theorem transactionType_classification_and_examples :
    (∀ invs : List AddressInvolvement,
      (AddressDetector.determineTransactionType invs = TransactionType.none ↔ invs = []) ∧
      (AddressDetector.determineTransactionType invs = TransactionType.both ↔
        invs.any (fun x => x.direction == Direction.input) = true ∧
        invs.any (fun x => x.direction == Direction.output) = true) ∧
      (AddressDetector.determineTransactionType invs = TransactionType.outgoing ↔
        invs.any (fun x => x.direction == Direction.input) = true ∧
        invs.any (fun x => x.direction == Direction.output) = false) ∧
      (AddressDetector.determineTransactionType invs = TransactionType.incoming ↔
        invs.any (fun x => x.direction == Direction.input) = false ∧
        invs.any (fun x => x.direction == Direction.output) = true)) ∧
    (∀ (st : AddressDetector.AddressDetectorState)
        (oracle : String → Option AddressDetector.PrevTx) (hasRpc : Bool)
        (tx : Transaction),
      (∀ a ∈ (BlockParser.extractAddressesFromTransaction tx).2,
        st.watchedAddresses.contains a = false) →
      (∀ a ∈ (BlockParser.extractAddressesFromTransaction tx).1,
        st.watchedAddresses.contains a = false) →
      ∃ r, (AddressDetector.detectAddressesInTransaction st oracle hasRpc tx).1 =
        Except.ok r ∧ r.addressInvolvements = [] ∧
        r.transactionType = TransactionType.none ∧ r.hasWatchedAddress = false) ∧
    (AddressDetector.detectAddressesInTransaction
      (AddressDetector.AddressDetectorState.ofWatched
        [("1A1zP1eP5QGefi2DMPTfTL5SLmv7DivfNa", "Genesis Block")])
      (fun _ => Option.none) false
      ⟨"tx1", [⟨"prev1", 0, true, Option.none, ""⟩],
        [⟨1 / 1000, 0, ⟨"", "", "pubkeyhash",
          Option.some ["1A1zP1eP5QGefi2DMPTfTL5SLmv7DivfNa"],
          Option.none, Option.none⟩⟩]⟩) =
      (Except.ok
        { hasWatchedAddress := true
          addressInvolvements :=
            [⟨"1A1zP1eP5QGefi2DMPTfTL5SLmv7DivfNa", Option.some "Genesis Block",
              Direction.output, 1 / 1000, Option.some AddressType.legacyP2PKH⟩]
          transactionType := TransactionType.incoming
          senders := []
          receivers := ["1A1zP1eP5QGefi2DMPTfTL5SLmv7DivfNa"] }, []) := by
  refine ⟨?_, ?_, ?_⟩
  · exact determineTransactionType_characterization
  · intro st oracle hasRpc tx h _
    have hd := detect_no_watched_outputs_eq st oracle hasRpc tx h
    exact ⟨_, by rw [hd], rfl, rfl, rfl⟩
  · rfl

/-- C6 witness: the no-watch conjunct applied at a concrete transaction
whose addresses are all outside the watch list. -/
theorem transactionType_classification_and_examples_witness :
    ∃ r, (AddressDetector.detectAddressesInTransaction
      (AddressDetector.AddressDetectorState.ofWatched [("watchedAddr111", "w")])
      (fun _ => Option.none) true
      ⟨"tx9", [⟨"prev9", 0, false, Option.some ["someSender1111"], ""⟩],
        [⟨7, 0, ⟨"", "", "pubkeyhash",
          Option.some ["someReceiver11"], Option.none, Option.none⟩⟩]⟩).1 =
      Except.ok r ∧ r.addressInvolvements = [] ∧
      r.transactionType = TransactionType.none ∧ r.hasWatchedAddress = false :=
  transactionType_classification_and_examples.2.1
    (AddressDetector.AddressDetectorState.ofWatched [("watchedAddr111", "w")])
    (fun _ => Option.none) true
    ⟨"tx9", [⟨"prev9", 0, false, Option.some ["someSender1111"], ""⟩],
      [⟨7, 0, ⟨"", "", "pubkeyhash",
        Option.some ["someReceiver11"], Option.none, Option.none⟩⟩]⟩
    (by decide)
    (by decide)

/-! ## C9: the short-circuit makes outgoing unreachable -/

/-- C9: in the detector that examines outputs first and inputs only after an
output match, no successful detection is ever classified outgoing, and a
purely outgoing transaction (watched addresses among the inputs only) is
classified none. -/
theorem detect_never_returns_outgoing :
    (∀ (st : AddressDetector.AddressDetectorState)
        (oracle : String → Option AddressDetector.PrevTx) (hasRpc : Bool)
        (tx : Transaction) (r : AddressDetector.DetectionResult)
        (calls : List String),
      AddressDetector.detectAddressesInTransaction st oracle hasRpc tx =
        (Except.ok r, calls) →
      r.transactionType ≠ TransactionType.outgoing) ∧
    (∀ (st : AddressDetector.AddressDetectorState)
        (oracle : String → Option AddressDetector.PrevTx) (hasRpc : Bool)
        (tx : Transaction),
      (∀ a ∈ (BlockParser.extractAddressesFromTransaction tx).2,
        st.watchedAddresses.contains a = false) →
      ∃ r, (AddressDetector.detectAddressesInTransaction st oracle hasRpc tx).1 =
        Except.ok r ∧ r.transactionType = TransactionType.none) := by
  constructor
  · intro st oracle hasRpc tx r calls h
    cases hrec : AddressDetector.processOutputAddressesGo st tx.vout
        (BlockParser.extractAddressesFromTransaction tx).2 0 with
    | error e =>
      have hd : AddressDetector.detectAddressesInTransaction st oracle hasRpc tx =
          (Except.error (), []) := by
        simp only [AddressDetector.detectAddressesInTransaction, hrec]
      rw [hd] at h
      exact Except.noConfusion (congrArg Prod.fst h)
    | ok outInvs =>
      have hd : AddressDetector.detectAddressesInTransaction st oracle hasRpc tx =
          (Except.ok
            { hasWatchedAddress :=
                (outInvs ++
                  (if outInvs.length > 0 then
                    AddressDetector.processInputAddresses st oracle hasRpc tx.vin
                      (BlockParser.extractAddressesFromTransaction tx).1
                   else ([], [])).1).length > 0
              addressInvolvements := outInvs ++
                (if outInvs.length > 0 then
                  AddressDetector.processInputAddresses st oracle hasRpc tx.vin
                    (BlockParser.extractAddressesFromTransaction tx).1
                 else ([], [])).1
              transactionType := AddressDetector.determineTransactionType (outInvs ++
                (if outInvs.length > 0 then
                  AddressDetector.processInputAddresses st oracle hasRpc tx.vin
                    (BlockParser.extractAddressesFromTransaction tx).1
                 else ([], [])).1)
              senders := (BlockParser.extractAddressesFromTransaction tx).1.filter
                (fun a => a.length > 10)
              receivers := (BlockParser.extractAddressesFromTransaction tx).2.filter
                (fun a => a.length > 10) },
            (if outInvs.length > 0 then
              AddressDetector.processInputAddresses st oracle hasRpc tx.vin
                (BlockParser.extractAddressesFromTransaction tx).1
             else ([], [])).2) := by
        simp only [AddressDetector.detectAddressesInTransaction, hrec]
      rw [hd] at h
      have h2 := Except.ok.inj (congrArg Prod.fst h)
      have hty := congrArg AddressDetector.DetectionResult.transactionType h2
      intro hout
      rw [hout] at hty
      have hiff := (determineTransactionType_characterization (outInvs ++
        (if outInvs.length > 0 then
          AddressDetector.processInputAddresses st oracle hasRpc tx.vin
            (BlockParser.extractAddressesFromTransaction tx).1
         else ([], [])).1)).2.2.1
      have hcontra := (hiff.mp hty).2
      cases houts : outInvs with
      | nil =>
        rw [houts] at hty
        simp [AddressDetector.determineTransactionType] at hty
      | cons inv0 tl =>
        have hdir : inv0.direction = Direction.output :=
          processOutputAddressesGo_direction st tx.vout
            (BlockParser.extractAddressesFromTransaction tx).2 0 outInvs hrec inv0
            (by rw [houts]; simp)
        rw [houts] at hcontra
        simp [hdir] at hcontra
  · intro st oracle hasRpc tx h
    have hd := detect_no_watched_outputs_eq st oracle hasRpc tx h
    exact ⟨_, by rw [hd], rfl⟩

/-- C9 witness: the never-outgoing conjunct applied to a concrete successful
detection (the single-watched-output transaction), and the purely-outgoing
conjunct applied to a transaction with a watched input only. -/
theorem detect_never_returns_outgoing_witness :
    ({ hasWatchedAddress := true
       addressInvolvements :=
         [⟨"1A1zP1eP5QGefi2DMPTfTL5SLmv7DivfNa", Option.some "Genesis Block",
           Direction.output, 1 / 1000, Option.some AddressType.legacyP2PKH⟩]
       transactionType := TransactionType.incoming
       senders := []
       receivers := ["1A1zP1eP5QGefi2DMPTfTL5SLmv7DivfNa"] } :
         AddressDetector.DetectionResult).transactionType ≠
      TransactionType.outgoing :=
  detect_never_returns_outgoing.1
    (AddressDetector.AddressDetectorState.ofWatched
      [("1A1zP1eP5QGefi2DMPTfTL5SLmv7DivfNa", "Genesis Block")])
    (fun _ => Option.none) false
    ⟨"tx1", [⟨"prev1", 0, true, Option.none, ""⟩],
      [⟨1 / 1000, 0, ⟨"", "", "pubkeyhash",
        Option.some ["1A1zP1eP5QGefi2DMPTfTL5SLmv7DivfNa"],
        Option.none, Option.none⟩⟩]⟩
    { hasWatchedAddress := true
      addressInvolvements :=
        [⟨"1A1zP1eP5QGefi2DMPTfTL5SLmv7DivfNa", Option.some "Genesis Block",
          Direction.output, 1 / 1000, Option.some AddressType.legacyP2PKH⟩]
      transactionType := TransactionType.incoming
      senders := []
      receivers := ["1A1zP1eP5QGefi2DMPTfTL5SLmv7DivfNa"] }
    [] rfl

/-! ## C3: OP_RETURN payload extraction -/

/-- C3 counterexample: on the nulldata script 6a03deadbe the code preserves
the payload hex deadbe but reports decodingSuccess true (the bytes decode
lossily to U+07AD U+FFFD, both inside the accepted printable range), not
false as claimed. -/
theorem extractOpReturnData_deadbe_succeeds :
    BlockParser.extractOpReturnData
      ⟨"txD", [], [⟨0, 0, ⟨"", "6a03deadbe", "nulldata",
        Option.none, Option.none, Option.none⟩⟩]⟩ =
      Option.some ⟨"deadbe", Option.some [1965, 65533], true⟩ := by
  rfl

/-- C3 amended: extract_embedded_payload is total; it always preserves the
payload hex unchanged; decodingSuccess is true exactly when the lossy UTF-8
decoding of the payload bytes is nonempty and every UTF-16 unit of it lies
in the printable class x20-x7E or A0-FFFF (a class that contains the
replacement character, so invalid UTF-8 can still succeed); on
6a0b48656c6c6f20776f726c64 it decodes to the text Hello world with
decodingSuccess true, and on 6a03deadbe it keeps hex deadbe but reports
decodingSuccess true with decoded text U+07AD U+FFFD. -/
theorem extractOpReturnData_spec :
    (∀ hexData : String,
      (BlockParser.decodeOpReturnData hexData).hex = hexData ∧
      ((BlockParser.decodeOpReturnData hexData).decodingSuccess = true ↔
        (toUtf16 (utf8DecodeReplace (bufferFromHex hexData))).all isPrintableUnit = true ∧
        (toUtf16 (utf8DecodeReplace (bufferFromHex hexData))).length > 0)) ∧
    (BlockParser.extractOpReturnData
      ⟨"txH", [], [⟨0, 0, ⟨"", "6a0b48656c6c6f20776f726c64", "nulldata",
        Option.none, Option.none, Option.none⟩⟩]⟩ =
      Option.some ⟨"48656c6c6f20776f726c64",
        Option.some ("Hello world".data.map Char.toNat), true⟩) ∧
    (BlockParser.extractOpReturnData
      ⟨"txD", [], [⟨0, 0, ⟨"", "6a03deadbe", "nulldata",
        Option.none, Option.none, Option.none⟩⟩]⟩ =
      Option.some ⟨"deadbe", Option.some [1965, 65533], true⟩) := by
  refine ⟨?_, ?_, ?_⟩
  · intro hexData
    constructor
    · rw [BlockParser.decodeOpReturnData]
      split <;> rfl
    · rw [BlockParser.decodeOpReturnData]
      split <;> simp_all
  · rfl
  · rfl

/-! ## Supporting lemmas for the base58 development: positional digits -/

theorem toDigitsAux_fuel_irrel (b : Nat) (hb : 2 ≤ b) :
    ∀ f1 f2 n : Nat, n ≤ f1 → n ≤ f2 →
      toDigitsAux b f1 n = toDigitsAux b f2 n := by
  intro f1
  induction f1 with
  | zero =>
    intro f2 n h1 _
    have hn : n = 0 := by omega
    subst hn
    cases f2 <;> simp [toDigitsAux]
  | succ k ih =>
    intro f2 n h1 h2
    cases n with
    | zero => cases f2 <;> simp [toDigitsAux]
    | succ m =>
      cases f2 with
      | zero => omega
      | succ k2 =>
        simp only [toDigitsAux, Nat.succ_ne_zero, if_false]
        have hdiv : (m + 1) / b < m + 1 := Nat.div_lt_self (Nat.succ_pos m) hb
        rw [ih k2 ((m + 1) / b) (by omega) (by omega)]

theorem toDigitsBase_succ (b : Nat) (hb : 2 ≤ b) (n : Nat) (hn : 0 < n) :
    toDigitsBase b n = toDigitsBase b (n / b) ++ [n % b] := by
  cases n with
  | zero => omega
  | succ m =>
    show toDigitsAux b (m + 1) (m + 1) = toDigitsBase b ((m + 1) / b) ++ [(m + 1) % b]
    simp only [toDigitsAux, Nat.succ_ne_zero, if_false]
    have hdiv : (m + 1) / b < m + 1 := Nat.div_lt_self (Nat.succ_pos m) hb
    rw [toDigitsAux_fuel_irrel b hb m ((m + 1) / b) ((m + 1) / b) (by omega) le_rfl]
    rfl

theorem fromDigitsBase_append_singleton (b : Nat) (ds : List Nat) (d : Nat) :
    fromDigitsBase b (ds ++ [d]) = fromDigitsBase b ds * b + d := by
  simp [fromDigitsBase, List.foldl_append]

theorem fromDigitsBase_acc (b : Nat) :
    ∀ (ds : List Nat) (a : Nat),
      ds.foldl (fun acc d => acc * b + d) a =
        a * b ^ ds.length + fromDigitsBase b ds := by
  intro ds
  induction ds with
  | nil => intro a; simp [fromDigitsBase]
  | cons d rest ih =>
    intro a
    have hl : fromDigitsBase b (d :: rest) =
        rest.foldl (fun acc d => acc * b + d) d := by
      simp [fromDigitsBase]
    rw [List.foldl_cons, ih (a * b + d), hl, ih d]
    simp [pow_succ]
    ring

theorem fromDigits_pos (b : Nat) (hb : 2 ≤ b) (y : Nat) (ys : List Nat)
    (hy : y ≠ 0) : 0 < fromDigitsBase b (y :: ys) := by
  have hl : fromDigitsBase b (y :: ys) =
      ys.foldl (fun acc d => acc * b + d) y := by
    simp [fromDigitsBase]
  rw [hl, fromDigitsBase_acc]
  have hp : 0 < y * b ^ ys.length :=
    Nat.mul_pos (Nat.pos_of_ne_zero hy) (Nat.pos_pow_of_pos _ (by omega))
  omega

theorem fromDigits_toDigits (b : Nat) (hb : 2 ≤ b) :
    ∀ n, fromDigitsBase b (toDigitsBase b n) = n := by
  intro n
  induction n using Nat.strong_induction_on with
  | _ n ih =>
    rcases Nat.eq_zero_or_pos n with h0 | hpos
    · subst h0; rfl
    · rw [toDigitsBase_succ b hb n hpos, fromDigitsBase_append_singleton,
        ih (n / b) (Nat.div_lt_self hpos hb)]
      calc n / b * b + n % b = b * (n / b) + n % b := by ring
        _ = n := Nat.div_add_mod n b

theorem toDigits_lt (b : Nat) (hb : 2 ≤ b) :
    ∀ n, ∀ d ∈ toDigitsBase b n, d < b := by
  intro n
  induction n using Nat.strong_induction_on with
  | _ n ih =>
    intro d hd
    rcases Nat.eq_zero_or_pos n with h0 | hpos
    · subst h0; simp [toDigitsBase, toDigitsAux] at hd
    · rw [toDigitsBase_succ b hb n hpos] at hd
      rcases List.mem_append.mp hd with h1 | h2
      · exact ih (n / b) (Nat.div_lt_self hpos hb) d h1
      · simp at h2; subst h2; exact Nat.mod_lt n (by omega)

theorem toDigits_ne_nil (b : Nat) (hb : 2 ≤ b) (n : Nat) (hpos : 0 < n) :
    toDigitsBase b n ≠ [] := by
  rw [toDigitsBase_succ b hb n hpos]
  simp

theorem toDigits_head_ne_zero (b : Nat) (hb : 2 ≤ b) :
    ∀ n, 0 < n → ∀ x, (toDigitsBase b n).head? = Option.some x → x ≠ 0 := by
  intro n
  induction n using Nat.strong_induction_on with
  | _ n ih =>
    intro hpos x hx
    rw [toDigitsBase_succ b hb n hpos] at hx
    by_cases hq : n / b = 0
    · rw [hq] at hx
      have hnil : toDigitsBase b 0 = [] := rfl
      rw [hnil] at hx
      simp at hx
      have hnb : n < b := (Nat.div_eq_zero_iff (by omega)).mp hq
      rw [← hx, Nat.mod_eq_of_lt hnb]
      omega
    · have hqpos : 0 < n / b := Nat.pos_of_ne_zero hq
      cases hl : toDigitsBase b (n / b) with
      | nil => exact absurd hl (toDigits_ne_nil b hb (n / b) hqpos)
      | cons y ys =>
        rw [hl] at hx
        simp at hx
        rw [← hx]
        exact ih (n / b) (Nat.div_lt_self hpos hb) hqpos y (by rw [hl]; rfl)

theorem toDigits_fromDigits (b : Nat) (hb : 2 ≤ b) :
    ∀ ds : List Nat, (∀ d ∈ ds, d < b) →
      (∀ x, ds.head? = Option.some x → x ≠ 0) →
      toDigitsBase b (fromDigitsBase b ds) = ds := by
  intro ds
  induction ds using List.reverseRecOn with
  | nil => intro _ _; rfl
  | append_singleton ds' d ih =>
    intro hlt hhead
    rw [fromDigitsBase_append_singleton]
    have hdb : d < b := hlt d (by simp)
    have hpos : 0 < fromDigitsBase b ds' * b + d := by
      rcases Nat.eq_zero_or_pos (fromDigitsBase b ds') with hm | hm
      · cases ds' with
        | nil =>
          have hd : d ≠ 0 := hhead d (by simp)
          omega
        | cons y ys =>
          have hy : y ≠ 0 := hhead y (by simp)
          have := fromDigits_pos b hb y ys hy
          omega
      · have := Nat.mul_pos hm (show 0 < b by omega)
        omega
    rw [toDigitsBase_succ b hb _ hpos]
    have hdiv : (fromDigitsBase b ds' * b + d) / b = fromDigitsBase b ds' := by
      rw [Nat.add_comm, Nat.add_mul_div_right _ _ (show 0 < b by omega),
        Nat.div_eq_of_lt hdb]
      omega
    have hmod : (fromDigitsBase b ds' * b + d) % b = d := by
      rw [Nat.add_comm, Nat.add_mul_mod_self_right]
      exact Nat.mod_eq_of_lt hdb
    rw [hdiv, hmod]
    have hds' : toDigitsBase b (fromDigitsBase b ds') = ds' := by
      apply ih (fun x hx => hlt x (by simp [hx]))
      intro x hx
      apply hhead x
      cases ds' with
      | nil => simp at hx
      | cons y ys => simpa using hx
    rw [hds']

/-! ## Supporting lemmas for the base58 alphabet and SHA-256 output shape -/

theorem charIndexIn_getD :
    ∀ d < 58, charIndexIn base58Alphabet (base58Alphabet.getD d '1') =
      Option.some d := by decide

theorem base58DigitsOf_map (ds : List Nat) (h : ∀ d ∈ ds, d < 58) :
    base58DigitsOf (ds.map (fun d => base58Alphabet.getD d '1')) =
      Option.some ds := by
  induction ds with
  | nil => rfl
  | cons d rest ih =>
    have hd : d < 58 := h d (by simp)
    have hr := ih (fun x hx => h x (by simp [hx]))
    simp only [List.map_cons, base58DigitsOf, charIndexIn_getD d hd, hr]

theorem leadingZeroCount_cons_ne_zero (x : Nat) (xs : List Nat) (hx : x ≠ 0) :
    leadingZeroCount (x :: xs) = 0 := by
  simp [leadingZeroCount, hx]

theorem sha256_length (msg : List Nat) : (sha256 msg).length = 32 := by
  simp [sha256, wordToBytes]

theorem mem_wordToBytes_lt (w x : Nat) (hx : x ∈ wordToBytes w) : x < 256 := by
  simp [wordToBytes] at hx
  rcases hx with h | h | h | h <;> subst h <;> exact Nat.mod_lt _ (by omega)

theorem sha256_lt (msg : List Nat) : ∀ x ∈ sha256 msg, x < 256 := by
  intro x hx
  rw [sha256] at hx
  rcases List.mem_flatten.mp hx with ⟨bs, hbs, hxbs⟩
  rcases List.mem_map.mp hbs with ⟨w, _, hw⟩
  exact mem_wordToBytes_lt w x (hw ▸ hxbs)

/-- SHA-256 of the three bytes of abc, matching the FIPS 180-4 test
vector. -/
theorem sha256_abc :
    sha256 [97, 98, 99] =
      [186, 120, 22, 191, 143, 1, 207, 234, 65, 65,
       64, 222, 93, 174, 34, 35, 176, 3, 97, 163,
       150, 23, 122, 156, 180, 16, 255, 97, 242, 0,
       21, 173] := by decide

/-- The core round trip: for a byte list with a nonzero first byte,
Base58Check decoding inverts Base58Check encoding exactly. -/
theorem base58CheckEncode_decode (data : List Nat) (hne : data ≠ [])
    (hhead : ∀ x, data.head? = Option.some x → x ≠ 0)
    (hlt : ∀ x ∈ data, x < 256) :
    base58CheckDecode (base58CheckEncode data) = Option.some data := by
  obtain ⟨b0, rest, rfl⟩ : ∃ b0 rest, data = b0 :: rest := by
    cases data with
    | nil => exact absurd rfl hne
    | cons x xs => exact ⟨x, xs, rfl⟩
  have hb0 : b0 ≠ 0 := hhead b0 rfl
  have hchklen : ((sha256 (sha256 (b0 :: rest))).take 4).length = 4 := by
    rw [List.length_take, sha256_length]
    omega
  have hplt : ∀ x ∈ (b0 :: rest) ++ (sha256 (sha256 (b0 :: rest))).take 4,
      x < 256 := by
    intro x hx
    rcases List.mem_append.mp hx with h | h
    · exact hlt x h
    · exact sha256_lt _ x (List.take_subset _ _ h)
  have happ : (b0 :: rest) ++ (sha256 (sha256 (b0 :: rest))).take 4 =
      b0 :: (rest ++ (sha256 (sha256 (b0 :: rest))).take 4) := rfl
  have hnum : 0 < fromDigitsBase 256
      ((b0 :: rest) ++ (sha256 (sha256 (b0 :: rest))).take 4) := by
    rw [happ]
    exact fromDigits_pos 256 (by omega) b0 _ hb0
  have hdslt : ∀ d ∈ toDigitsBase 58 (fromDigitsBase 256
      ((b0 :: rest) ++ (sha256 (sha256 (b0 :: rest))).take 4)), d < 58 :=
    toDigits_lt 58 (by omega) _
  have hdsne : toDigitsBase 58 (fromDigitsBase 256
      ((b0 :: rest) ++ (sha256 (sha256 (b0 :: rest))).take 4)) ≠ [] :=
    toDigits_ne_nil 58 (by omega) _ hnum
  have hdshead : ∀ x, (toDigitsBase 58 (fromDigitsBase 256
      ((b0 :: rest) ++ (sha256 (sha256 (b0 :: rest))).take 4))).head? =
        Option.some x → x ≠ 0 :=
    fun x hx => toDigits_head_ne_zero 58 (by omega) _ hnum x hx
  have henc : base58CheckEncode (b0 :: rest) = String.mk
      ((toDigitsBase 58 (fromDigitsBase 256
        ((b0 :: rest) ++ (sha256 (sha256 (b0 :: rest))).take 4))).map
        (fun d => base58Alphabet.getD d '1')) := by
    rw [base58CheckEncode, base58Encode, happ,
      leadingZeroCount_cons_ne_zero b0 _ hb0]
    rfl
  have hdigs := base58DigitsOf_map _ hdslt
  rw [henc]
  simp only [base58CheckDecode, hdigs]
  have hlz : leadingZeroCount (toDigitsBase 58 (fromDigitsBase 256
      ((b0 :: rest) ++ (sha256 (sha256 (b0 :: rest))).take 4))) = 0 := by
    cases hcons : toDigitsBase 58 (fromDigitsBase 256
        ((b0 :: rest) ++ (sha256 (sha256 (b0 :: rest))).take 4)) with
    | nil => exact absurd hcons hdsne
    | cons y ys =>
      exact leadingZeroCount_cons_ne_zero y ys
        (hdshead y (by rw [hcons]; rfl))
  have hback : toDigitsBase 256 (fromDigitsBase 58 (toDigitsBase 58
      (fromDigitsBase 256
        ((b0 :: rest) ++ (sha256 (sha256 (b0 :: rest))).take 4)))) =
      (b0 :: rest) ++ (sha256 (sha256 (b0 :: rest))).take 4 := by
    rw [fromDigits_toDigits 58 (by omega)]
    rw [happ]
    apply toDigits_fromDigits 256 (by omega)
    · rw [← happ]; exact hplt
    · intro x hx
      simp at hx
      rw [← hx]
      exact hb0
  have hbytes : List.replicate (leadingZeroCount (toDigitsBase 58
      (fromDigitsBase 256
        ((b0 :: rest) ++ (sha256 (sha256 (b0 :: rest))).take 4)))) 0 ++
      toDigitsBase 256 (fromDigitsBase 58 (toDigitsBase 58 (fromDigitsBase 256
        ((b0 :: rest) ++ (sha256 (sha256 (b0 :: rest))).take 4)))) =
      (b0 :: rest) ++ (sha256 (sha256 (b0 :: rest))).take 4 := by
    rw [hlz, hback, List.replicate_zero, List.nil_append]
  have hlen : ((b0 :: rest) ++ (sha256 (sha256 (b0 :: rest))).take 4).length =
      (b0 :: rest).length + 4 := by
    rw [List.length_append, hchklen]
  have hsub : ((b0 :: rest) ++ (sha256 (sha256 (b0 :: rest))).take 4).length - 4 =
      (b0 :: rest).length := by omega
  have htake : (((b0 :: rest) ++ (sha256 (sha256 (b0 :: rest))).take 4).take
      ((((b0 :: rest) ++ (sha256 (sha256 (b0 :: rest))).take 4)).length - 4)) =
      b0 :: rest := by
    rw [hsub]
    exact List.take_left _ _
  have hdrop : (((b0 :: rest) ++ (sha256 (sha256 (b0 :: rest))).take 4).drop
      ((((b0 :: rest) ++ (sha256 (sha256 (b0 :: rest))).take 4)).length - 4)) =
      (sha256 (sha256 (b0 :: rest))).take 4 := by
    rw [hsub]
    exact List.drop_left _ _
  rw [hbytes, htake, hdrop]
  rw [if_pos ⟨by omega, rfl⟩]

/-! ## C7: Base58Check encoding and the round trip -/

/-- C7: base58CheckEncode appends as checksum the first 4 bytes of the
double SHA-256 of version-plus-payload and encodes the result as a
big-endian base-58 integer over the standard alphabet with one leading
digit 1 per leading zero byte; consequently every 20-byte hash prefixed
with the P2PKH version byte 0x6f decodes back to exactly that version byte
and hash, with the checksum verifying. -/
theorem base58Check_roundtrip :
    (∀ data : List Nat, base58CheckEncode data =
      base58Encode (data ++ (sha256 (sha256 data)).take 4)) ∧
    (∀ hash : List Nat, hash.length = 20 → (∀ x ∈ hash, x < 256) →
      base58CheckDecode (base58CheckEncode (111 :: hash)) =
        Option.some (111 :: hash)) := by
  refine ⟨fun data => rfl, ?_⟩
  intro hash _ hlt
  apply base58CheckEncode_decode
  · simp
  · intro x hx
    simp at hx
    omega
  · intro x hx
    rcases List.mem_cons.mp hx with h | h
    · omega
    · exact hlt x h

/-- C7 witness: the round trip applied to the concrete 20-byte hash of
repeated 0x12 bytes. -/
theorem base58Check_roundtrip_witness :
    base58CheckDecode (base58CheckEncode (111 :: List.replicate 20 18)) =
      Option.some (111 :: List.replicate 20 18) :=
  base58Check_roundtrip.2 (List.replicate 20 18) (by decide) (by decide)

/-! ## C10: updateWatchedAddresses and getStatus -/

/-- C10: updateWatchedAddresses replaces only the detector state and leaves
the configuration untouched, while getStatus reports the watched-address
count from the startup configuration list; hence whenever an update changes
the number of watched addresses, the status count is unchanged and no
longer equals the detector's current set size. -/
theorem updateWatchedAddresses_getStatus_frame :
    ∀ (m : BlockMonitor.BlockMonitorState) (addrs : List (String × String))
      (heapUsedBytes : Rat),
      (BlockMonitor.getStatus (BlockMonitor.updateWatchedAddresses m addrs)
          heapUsedBytes).watchedAddresses =
        (BlockMonitor.getStatus m heapUsedBytes).watchedAddresses ∧
      (BlockMonitor.updateWatchedAddresses m addrs).config = m.config ∧
      (BlockMonitor.updateWatchedAddresses m addrs).addressDetector.watchedAddresses =
        AddressDetector.uniqueKeys (addrs.map Prod.fst) ∧
      ((AddressDetector.uniqueKeys (addrs.map Prod.fst)).length ≠
          m.config.addresses.length →
        (BlockMonitor.getStatus (BlockMonitor.updateWatchedAddresses m addrs)
            heapUsedBytes).watchedAddresses ≠
          (BlockMonitor.updateWatchedAddresses m addrs).addressDetector.watchedAddresses.length) := by
  intro m addrs heap
  refine ⟨rfl, rfl, rfl, ?_⟩
  intro hne
  simpa [BlockMonitor.getStatus, BlockMonitor.updateWatchedAddresses,
    AddressDetector.updateWatchedAddresses,
    AddressDetector.AddressDetectorState.ofWatched] using fun h => hne h.symm

/-- C10 witness: a monitor configured with one address, updated to a
two-address watch list: the status still reports 1 while the detector set
has size 2. -/
theorem updateWatchedAddresses_getStatus_frame_witness :
    (BlockMonitor.getStatus
      (BlockMonitor.updateWatchedAddresses
        ⟨⟨"url", [⟨"a1111111111", Option.none⟩], 5000, 512, false⟩,
          AddressDetector.AddressDetectorState.ofWatched [("a1111111111", "one")],
          true, 0⟩
        [("b1111111111", "two"), ("c1111111111", "three")]) 0).watchedAddresses ≠
    (BlockMonitor.updateWatchedAddresses
        ⟨⟨"url", [⟨"a1111111111", Option.none⟩], 5000, 512, false⟩,
          AddressDetector.AddressDetectorState.ofWatched [("a1111111111", "one")],
          true, 0⟩
        [("b1111111111", "two"), ("c1111111111", "three")]).addressDetector.watchedAddresses.length := by
  exact (updateWatchedAddresses_getStatus_frame
    ⟨⟨"url", [⟨"a1111111111", Option.none⟩], 5000, 512, false⟩,
      AddressDetector.AddressDetectorState.ofWatched [("a1111111111", "one")],
      true, 0⟩
    [("b1111111111", "two"), ("c1111111111", "three")] 0).2.2.2 (by decide)

end BtcScanner
